import Mathlib

/-!
Verification development for the proximity-verified delivery backend.

The definitions below are a shallow embedding of the repository's core:
the Express handlers in the backend server file (session activation,
challenge issuance, proof submission, event verification), the SQLite
record store (`backend/db.js`), and the `AnchorRegistry` Solidity
contract.  External libraries (node `crypto`, `elliptic`) are modelled
as explicit oracles; JavaScript dynamic values are modelled by small sum
types; timestamps are integer milliseconds; all record-store tables are
lists of rows mutated exactly the way the SQL statements mutate them.
-/

namespace PoD

/-! ### Hex encoding (node `Buffer.toString('hex')` for random bytes) -/

def hexDigitChar (n : Fin 16) : Char :=
  if n.val < 10 then Char.ofNat (48 + n.val) else Char.ofNat (97 + (n.val - 10))

def hexVal (c : Char) : Option (Fin 16) :=
  if c = '0' then some 0 else if c = '1' then some 1
  else if c = '2' then some 2 else if c = '3' then some 3
  else if c = '4' then some 4 else if c = '5' then some 5
  else if c = '6' then some 6 else if c = '7' then some 7
  else if c = '8' then some 8 else if c = '9' then some 9
  else if c = 'a' then some 10 else if c = 'b' then some 11
  else if c = 'c' then some 12 else if c = 'd' then some 13
  else if c = 'e' then some 14 else if c = 'f' then some 15
  else none

theorem hexVal_hexDigitChar : ∀ d : Fin 16, hexVal (hexDigitChar d) = some d := by
  decide

/-- One byte rendered as two lowercase hex digits. -/
def hexByte (b : Fin 256) : List Char :=
  [hexDigitChar ⟨b.val / 16, by omega⟩, hexDigitChar ⟨b.val % 16, by omega⟩]

/-- `crypto.randomBytes(n).toString('hex')`: byte list to lowercase hex. -/
def hexOfBytes (bs : List (Fin 256)) : String :=
  String.mk (bs.flatMap hexByte)

theorem hexByte_inj (b₁ b₂ : Fin 256) (r₁ r₂ : List Char)
    (h : hexByte b₁ ++ r₁ = hexByte b₂ ++ r₂) : b₁ = b₂ ∧ r₁ = r₂ := by
  simp only [hexByte, List.cons_append, List.nil_append, List.cons.injEq] at h
  obtain ⟨h1, h2, h3⟩ := h
  have e1 : (⟨b₁.val / 16, by omega⟩ : Fin 16) = ⟨b₂.val / 16, by omega⟩ := by
    have hx := congrArg hexVal h1
    rw [hexVal_hexDigitChar, hexVal_hexDigitChar] at hx
    exact Option.some.inj hx
  have e2 : (⟨b₁.val % 16, by omega⟩ : Fin 16) = ⟨b₂.val % 16, by omega⟩ := by
    have hx := congrArg hexVal h2
    rw [hexVal_hexDigitChar, hexVal_hexDigitChar] at hx
    exact Option.some.inj hx
  have v1 : b₁.val / 16 = b₂.val / 16 := congrArg Fin.val e1
  have v2 : b₁.val % 16 = b₂.val % 16 := congrArg Fin.val e2
  refine ⟨Fin.ext ?_, h3⟩
  omega

theorem hexOfBytes_inj : Function.Injective hexOfBytes := by
  intro b₁ b₂ h
  have h' : b₁.flatMap hexByte = b₂.flatMap hexByte := congrArg String.data h
  clear h
  induction b₁ generalizing b₂ with
  | nil =>
    cases b₂ with
    | nil => rfl
    | cons b bs => simp [hexByte] at h'
  | cons a as ih =>
    cases b₂ with
    | nil => simp [hexByte] at h'
    | cons b bs =>
      simp only [List.flatMap_cons] at h'
      obtain ⟨hb, hr⟩ := hexByte_inj a b _ _ h'
      rw [hb, ih hr]

/-! ### JSON string escaping (`JSON.stringify` on strings)

`JSON.stringify` escapes `"` and `\`, uses the short escapes for
backspace, form feed, newline, carriage return and tab, renders the
remaining control characters (code points below 0x20) as `\u00XX` with
lowercase hex, and copies every other character verbatim. -/

def escChar (c : Char) : List Char :=
  if c = '"' then ['\\', '"']
  else if c = '\\' then ['\\', '\\']
  else if c = Char.ofNat 8 then ['\\', 'b']
  else if c = Char.ofNat 12 then ['\\', 'f']
  else if c = '\n' then ['\\', 'n']
  else if c = Char.ofNat 13 then ['\\', 'r']
  else if c = '\t' then ['\\', 't']
  else if h : c.toNat < 32 then
    ['\\', 'u', '0', '0', hexDigitChar ⟨c.toNat / 16, by omega⟩,
      hexDigitChar ⟨c.toNat % 16, by omega⟩]
  else [c]

def escapeChars (s : List Char) : List Char :=
  s.flatMap escChar

/-- `JSON.stringify` applied to a string value: a quoted, escaped literal. -/
def jsonStrLit (s : String) : String :=
  String.mk ('"' :: (escapeChars s.data ++ ['"']))

/-- `JSON.stringify` applied to an array of strings. -/
def jsonArr (xs : List String) : String :=
  String.mk ('[' :: ((List.intersperse [','] (xs.map (fun s => (jsonStrLit s).data))).flatten ++ [']']))

def consFst (c : Char) : Option (List Char × List Char) → Option (List Char × List Char)
  | none => none
  | some (l, r) => some (c :: l, r)

/-- Proof device: decoder for the region of a quoted JSON string literal
after its opening quote.  It returns the unescaped content and the
characters following the closing quote, and is a left inverse of
`escapeChars` (used only to establish injectivity of the canonical
serialization). -/
def parseStrTail : List Char → Option (List Char × List Char)
  | [] => none
  | c :: rest =>
    if c = '"' then some ([], rest)
    else if c = '\\' then
      match rest with
      | [] => none
      | e :: rest2 =>
        if e = '"' then consFst '"' (parseStrTail rest2)
        else if e = '\\' then consFst '\\' (parseStrTail rest2)
        else if e = 'b' then consFst (Char.ofNat 8) (parseStrTail rest2)
        else if e = 'f' then consFst (Char.ofNat 12) (parseStrTail rest2)
        else if e = 'n' then consFst '\n' (parseStrTail rest2)
        else if e = 'r' then consFst (Char.ofNat 13) (parseStrTail rest2)
        else if e = 't' then consFst '\t' (parseStrTail rest2)
        else if e = 'u' then
          match rest2 with
          | d0 :: d1 :: h1 :: h2 :: rest3 =>
            if d0 = '0' ∧ d1 = '0' then
              match hexVal h1, hexVal h2 with
              | some a, some b => consFst (Char.ofNat (16 * a.val + b.val)) (parseStrTail rest3)
              | _, _ => none
            else none
          | _ => none
        else none
    else consFst c (parseStrTail rest)
  termination_by l => l.length

theorem parseStrTail_escChar (c : Char) (X : List Char) :
    parseStrTail (escChar c ++ X) = consFst c (parseStrTail X) := by
  unfold escChar
  split
  · next hc =>
    subst hc
    rw [List.cons_append, List.cons_append, List.nil_append, parseStrTail.eq_def]
    simp
  · split
    · next hc =>
      subst hc
      rw [List.cons_append, List.cons_append, List.nil_append, parseStrTail.eq_def]
      simp
    · split
      · next hc =>
        rw [List.cons_append, List.cons_append, List.nil_append, parseStrTail.eq_def]
        simp [hc]
      · split
        · next hc =>
          rw [List.cons_append, List.cons_append, List.nil_append, parseStrTail.eq_def]
          simp [hc]
        · split
          · next hc =>
            subst hc
            rw [List.cons_append, List.cons_append, List.nil_append, parseStrTail.eq_def]
            simp
          · split
            · next hc =>
              rw [List.cons_append, List.cons_append, List.nil_append, parseStrTail.eq_def]
              simp [hc]
            · split
              · next hc =>
                subst hc
                rw [List.cons_append, List.cons_append, List.nil_append, parseStrTail.eq_def]
                simp
              · split
                · next h1 h2 h3 h4 h5 h6 h7 hlt =>
                  simp only [List.cons_append, List.nil_append]
                  rw [parseStrTail.eq_def]
                  dsimp only
                  rw [if_neg (by decide), if_pos rfl]
                  rw [if_neg (by decide), if_neg (by decide), if_neg (by decide),
                    if_neg (by decide), if_neg (by decide), if_neg (by decide),
                    if_neg (by decide), if_pos rfl]
                  rw [if_pos (And.intro rfl rfl)]
                  rw [hexVal_hexDigitChar, hexVal_hexDigitChar]
                  dsimp only
                  have hv : 16 * (c.toNat / 16) + c.toNat % 16 = c.toNat := by omega
                  rw [hv, Char.ofNat_toNat]
                · next h1 h2 h3 h4 h5 h6 h7 hge =>
                  rw [List.cons_append, List.nil_append, parseStrTail.eq_def]
                  dsimp only
                  rw [if_neg h1, if_neg h2]

theorem parseStrTail_escape (s : List Char) (r : List Char) :
    parseStrTail (escapeChars s ++ '"' :: r) = some (s, r) := by
  induction s with
  | nil =>
    show parseStrTail (List.flatMap [] escChar ++ '"' :: r) = _
    rw [List.flatMap_nil, List.nil_append, parseStrTail.eq_def]
    simp
  | cons c cs ih =>
    show parseStrTail (List.flatMap (c :: cs) escChar ++ '"' :: r) = _
    rw [List.flatMap_cons, List.append_assoc]
    have : List.flatMap cs escChar = escapeChars cs := rfl
    rw [this, parseStrTail_escChar, ih]
    rfl

theorem escapeChars_quote_cancel (s₁ s₂ r₁ r₂ : List Char)
    (h : escapeChars s₁ ++ '"' :: r₁ = escapeChars s₂ ++ '"' :: r₂) :
    s₁ = s₂ ∧ r₁ = r₂ := by
  have h1 := parseStrTail_escape s₁ r₁
  rw [h, parseStrTail_escape s₂ r₂] at h1
  simp only [Option.some.injEq, Prod.mk.injEq] at h1
  exact ⟨h1.1.symm, h1.2.symm⟩

/-! ### Data model (SQLite tables from `backend/db.js`)

Each table is a list of rows in insertion order; `INSERT` appends,
`UPDATE` maps over the rows, single-row `SELECT` takes the first match.
Timestamps are `Date.now()` milliseconds (`Int`). -/

structure Session where
  session_id : String
  customer_id : String
  order_id : String
  ephemeral_token : String
  token_type : String
  created_at : Int
  expires_at : Int
  status : String
deriving DecidableEq, Repr

structure Challenge where
  challenge_id : String
  session_id : String
  dp_id : String
  challenge_nonce : String
  created_at : Int
  expires_at : Int
  used : Bool
deriving DecidableEq, Repr

structure DPKeyRow where
  dp_id : String
  public_key : String
  key_type : String
  registered_at : Int
  status : String
deriving DecidableEq, Repr

/-- The in-memory `eventData` object built by the deliveries handler
(all fields are strings at that point; `evidence_hashes` is already the
`JSON.stringify` of the submitted array). -/
structure EventData where
  event_id : String
  session_id : String
  order_id : String
  customer_id : String
  dp_id : String
  ephemeral_token_hash : String
  challenge_nonce : String
  dp_signature : String
  evidence_hashes : String
  timestamp : String
  backend_received_at : String
deriving DecidableEq, Repr

/-- A `delivery_events` row: the inserted `eventData` plus the anchoring
columns (`NULL` before anchoring) and the `status` column
(SQL default `'pending'`). -/
structure DeliveryRow where
  event_id : String
  session_id : String
  order_id : String
  customer_id : String
  dp_id : String
  ephemeral_token_hash : String
  challenge_nonce : String
  dp_signature : String
  evidence_hashes : String
  timestamp : String
  backend_received_at : String
  anchor_hash : Option String
  tx_hash : Option String
  anchored_at : Option String
  status : String
deriving DecidableEq, Repr

structure DB where
  sessions : List Session
  challenges : List Challenge
  events : List DeliveryRow
  dpKeys : List DPKeyRow
deriving DecidableEq, Repr

def DB.createSession (db : DB) (s : Session) : DB :=
  { db with sessions := db.sessions ++ [s] }

def DB.getSession (db : DB) (sid : String) : Option Session :=
  db.sessions.find? (fun s => s.session_id == sid)

def DB.updateSessionStatus (db : DB) (sid : String) (st : String) : DB :=
  { db with sessions :=
      db.sessions.map (fun s => if s.session_id == sid then { s with status := st } else s) }

def DB.createChallenge (db : DB) (c : Challenge) : DB :=
  { db with challenges := db.challenges ++ [c] }

/-- The `ORDER BY created_at DESC LIMIT 1` selection, as a fold. -/
def pickLatest (acc : Option Challenge) (c : Challenge) : Option Challenge :=
  match acc with
  | none => some c
  | some a => if a.created_at < c.created_at then some c else some a

def DB.getChallenge (db : DB) (sid dpid : String) : Option Challenge :=
  (db.challenges.filter
      (fun c => c.session_id == sid && c.dp_id == dpid && c.used == false)).foldl
    pickLatest none

/-- `UPDATE challenges SET used = 1 WHERE challenge_id = ?` (note: no
`AND used = 0` condition). -/
def DB.markChallengeUsed (db : DB) (cid : String) : DB :=
  { db with challenges :=
      db.challenges.map (fun c => if c.challenge_id == cid then { c with used := true } else c) }

def DB.createDeliveryEvent (db : DB) (e : EventData) : DB :=
  { db with events := db.events ++
      [{ event_id := e.event_id, session_id := e.session_id, order_id := e.order_id,
         customer_id := e.customer_id, dp_id := e.dp_id,
         ephemeral_token_hash := e.ephemeral_token_hash,
         challenge_nonce := e.challenge_nonce, dp_signature := e.dp_signature,
         evidence_hashes := e.evidence_hashes, timestamp := e.timestamp,
         backend_received_at := e.backend_received_at,
         anchor_hash := none, tx_hash := none, anchored_at := none,
         status := "pending" }] }

def DB.updateEventAnchor (db : DB) (eid h tx at_ : String) : DB :=
  { db with events :=
      db.events.map (fun e =>
        if e.event_id == eid then
          { e with anchor_hash := some h, tx_hash := some tx, anchored_at := some at_,
                   status := "anchored" }
        else e) }

def DB.getDeliveryEvent (db : DB) (eid : String) : Option DeliveryRow :=
  db.events.find? (fun e => e.event_id == eid)

def DB.getDPKey (db : DB) (dpid : String) : Option DPKeyRow :=
  db.dpKeys.find? (fun k => k.dp_id == dpid && k.status == "active")

/-! ### The `AnchorRegistry` contract

State: the `anchored` mapping (modelled as the list of marked hashes)
plus the emitted `AnchorStored` events. `storeAnchor` reverts (returns
`Except.error` with the `require` message and leaves the state
unchanged) when the hash is already anchored. -/

structure AnchorEvent where
  anchorHash : String
  actor : String
  timestamp : Int
  eventId : String
deriving DecidableEq, Repr

structure Ledger where
  anchored : List String
  log : List AnchorEvent
deriving DecidableEq, Repr

def Ledger.isAnchored (L : Ledger) (h : String) : Bool :=
  L.anchored.contains h

def Ledger.storeAnchor (L : Ledger) (sender : String) (blockTime : Int) (h eid : String) :
    Except String Ledger :=
  if L.anchored.contains h then .error "Anchor already exists"
  else .ok { anchored := L.anchored ++ [h],
             log := L.log ++ [{ anchorHash := h, actor := sender, timestamp := blockTime,
                                eventId := eid }] }

/-- One iteration of `storeAnchorBatch`: skip hashes that are already
anchored, otherwise mark and emit. -/
def batchStep (sender : String) (blockTime : Int) (acc : Ledger) (p : String × String) :
    Ledger :=
  if acc.anchored.contains p.1 then acc
  else { anchored := acc.anchored ++ [p.1],
         log := acc.log ++ [{ anchorHash := p.1, actor := sender, timestamp := blockTime,
                              eventId := p.2 }] }

def Ledger.storeAnchorBatch (L : Ledger) (sender : String) (blockTime : Int)
    (hs eids : List String) : Except String Ledger :=
  if hs.length ≠ eids.length then .error "Array length mismatch"
  else .ok ((hs.zip eids).foldl (batchStep sender blockTime) L)

/-- Count of `AnchorStored` events emitted for a given hash. -/
def Ledger.logCount (L : Ledger) (h : String) : Nat :=
  (L.log.filter (fun e => e.anchorHash == h)).length


/-! ### JavaScript values and the crypto/elliptic oracles

Request fields arrive as arbitrary JSON values.  For string-typed
positions we model a value as either a string or a non-string
(`nonstr`); the only JavaScript behaviours the code depends on are
truthiness (`none`/empty string are falsy) and `typeof x === 'string'`.
SHA-256 and secp256k1 are external libraries, modelled as an oracle. -/

inductive JsValue where
  | jstr (s : String)
  | nonstr
deriving DecidableEq, Repr

/-- A string-valued `message` of a proof bundle, abstracted by the raw
bytes (`raw`, what gets hashed and signed) together with the outcome of
`JSON.parse` on it: `none` when parsing throws, otherwise the relevant
properties of the parsed value (a property is `none` when absent or not
a string, in which case the strict comparison with a string fails). -/
structure MsgFields where
  session_id : Option String
  challenge_nonce : Option String
  ephemeral_token_hash : Option String
  dp_id : Option String
  timestamp : Option String
deriving DecidableEq, Repr

structure StrMessage where
  raw : String
  parsed : Option MsgFields
deriving DecidableEq, Repr

inductive JsMessage where
  | str (m : StrMessage)
  | nonstr
deriving DecidableEq, Repr

/-- The base64 `signed_blob`: either `JSON.parse(Buffer.from(b,
'base64'))` yields an object with `message`/`signature` properties, or
decoding/destructuring throws. -/
inductive SignedBlob where
  | decodes (message : JsMessage) (signature : JsValue)
  | undecodable
deriving DecidableEq, Repr

structure CryptoOracle where
  /-- `crypto.createHash('sha256').update(s).digest('hex')`. -/
  hash : String → String
  /-- `ec.keyFromPublic(pk, 'hex')`; `none` when the library throws. -/
  keyFromPublic : String → Option String
  /-- `key.verify(msgHash, {r, s})` on a successfully parsed key. -/
  ecVerify : String → String → String → String → Bool

/-- The regex `/^[0-9a-fA-F]*$/`. -/
def jsIsHex (c : Char) : Bool :=
  c.isDigit || ('a' ≤ c && c ≤ 'f') || ('A' ≤ c && c ≤ 'F')

/-- `verifySignature(publicKeyHex, message, signatureHex)` from the
backend server.  The body's `try`/`catch` (signature-library or hashing
throws return `false`) is reflected by the oracle's `Option` results and
by the non-string message case. -/
def verifySignature (C : CryptoOracle) (publicKeyHex : JsValue) (message : JsMessage)
    (signatureHex : JsValue) : Bool :=
  match publicKeyHex with
  | .nonstr => false
  | .jstr pk =>
    if pk = "" then false
    else
      match signatureHex with
      | .nonstr => false
      | .jstr sig =>
        if sig = "" then false
        else if ¬ (sig.data.all jsIsHex) then false
        else if sig.length ≠ 128 then false
        else
          match C.keyFromPublic pk with
          | none => false
          | some key =>
            match message with
            | .nonstr => false
            | .str m =>
              C.ecVerify key (C.hash m.raw)
                (String.mk (sig.data.take 64)) (String.mk (sig.data.drop 64))

/-- `canonicalizeEvent(eventData)`: `JSON.stringify` of the object
literal with the ten listed fields in source order (note: the braces of
the JSON output are written with `\x7b`/`\x7d` escapes).  `event_id` is
not among them.  `eventData.evidence_hashes || []` makes an empty string
fall back to the empty array. -/
def canonicalizeEvent (e : EventData) : String :=
  "\x7b\"session_id\":" ++ jsonStrLit e.session_id ++
  ",\"order_id\":" ++ jsonStrLit e.order_id ++
  ",\"customer_id\":" ++ jsonStrLit e.customer_id ++
  ",\"dp_id\":" ++ jsonStrLit e.dp_id ++
  ",\"ephemeral_token_hash\":" ++ jsonStrLit e.ephemeral_token_hash ++
  ",\"challenge_nonce\":" ++ jsonStrLit e.challenge_nonce ++
  ",\"dp_signature\":" ++ jsonStrLit e.dp_signature ++
  ",\"evidence_hashes\":" ++ (if e.evidence_hashes = "" then "[]" else jsonStrLit e.evidence_hashes) ++
  ",\"timestamp\":" ++ jsonStrLit e.timestamp ++
  ",\"backend_received_at\":" ++ jsonStrLit e.backend_received_at ++ "\x7d"

/-! ### `POST /api/v1/sessions` -/

structure SessionRequest where
  customer_id : Option String
  order_id : Option String
  /-- `ttl_seconds = 300` destructuring default applies when absent. -/
  ttl_seconds : Option Int
deriving DecidableEq, Repr

inductive SessionResult where
  /-- 400 `customer_id and order_id required`. -/
  | invalidInput
  /-- 200 with `{session_id, ephemeral_token, token_type, expires_at, ttl_seconds}`;
  we return the created row, from which the response body is read off. -/
  | created (s : Session)
deriving DecidableEq, Repr

/-- JavaScript falsiness of a string-typed request field. -/
def jsFalsy : Option String → Bool
  | none => true
  | some s => s == ""

def createSessionHandler (req : SessionRequest) (db : DB) (now : Int)
    (session_id ephemeral_token : String) : SessionResult × DB :=
  match req.customer_id, req.order_id with
  | some cust, some ord =>
    if cust == "" || ord == "" then (.invalidInput, db)
    else
      let ttl := req.ttl_seconds.getD 300
      let expires_at := now + ttl * 1000
      let s : Session :=
        { session_id := session_id, customer_id := cust, order_id := ord,
          ephemeral_token := ephemeral_token, token_type := "BLE",
          created_at := now, expires_at := expires_at, status := "active" }
      (.created s, db.createSession s)
  | _, _ => (.invalidInput, db)

/-! ### `POST /api/v1/sessions/:session_id/challenge` -/

inductive ChallengeResult where
  | dpIdRequired        -- 400 `dp_id required`
  | sessionNotFound     -- 404 `Session not found`
  | sessionExpired      -- 400 `Session expired`
  | sessionNotActive    -- 400 `Session not active`
  | dpNotRegistered     -- 403 `Delivery partner not registered`
  | issued (c : Challenge)  -- 200 with `{challenge_nonce, expires_at}`
deriving DecidableEq, Repr

/-- `nonceBytes` models the fresh `crypto.randomBytes(16)` for
`generateToken(16)`; `challenge_id` the `generateId('ch')` output. -/
def createChallengeHandler (session_id : String) (dp_id : Option String) (db : DB)
    (now : Int) (challenge_id : String) (nonceBytes : List (Fin 256)) :
    ChallengeResult × DB :=
  if jsFalsy dp_id then (.dpIdRequired, db)
  else
    match dp_id with
    | none => (.dpIdRequired, db)
    | some dpid =>
      match db.getSession session_id with
      | none => (.sessionNotFound, db)
      | some session =>
        if now > session.expires_at then (.sessionExpired, db)
        else if session.status ≠ "active" then (.sessionNotActive, db)
        else
          match db.getDPKey dpid with
          | none => (.dpNotRegistered, db)
          | some _ =>
            let c : Challenge :=
              { challenge_id := challenge_id, session_id := session_id, dp_id := dpid,
                challenge_nonce := hexOfBytes nonceBytes, created_at := now,
                expires_at := now + 60 * 1000, used := false }
            (.issued c, db.createChallenge c)


/-! ### `POST /api/v1/deliveries`

The handler is split at its first write: `submitPhase1` is everything up
to and including the message-data check (only reads), `submitPhase2` is
`markChallengeUsed` onwards (the writes and the anchoring call).  The
composite `submitDeliveries` is the whole handler; the split is also the
suspension point at which a concurrently handled second request can
observe the store before the first request's writes. -/

structure SubmitRequest where
  session_id : Option String
  dp_id : Option String
  signed_blob : Option SignedBlob
  /-- `evidence_hashes = []` destructuring default. -/
  evidence_hashes : List String
deriving DecidableEq, Repr

inductive SubmitFailure where
  | missingFields      -- 400 `session_id, dp_id, and signed_blob required`
  | sessionNotFound    -- 404 `Session not found`
  | noActiveChallenge  -- 400 `No active challenge found`
  | challengeExpired   -- 400 `Challenge expired`
  | dpNotRegistered    -- 403 `Delivery partner not registered`
  | invalidSignature   -- 401 `Invalid signature`
  | messageMismatch    -- 400 `Message data mismatch`
  | internalError      -- 500 `Internal server error` (the catch-all)
deriving DecidableEq, Repr

inductive SubmitResult where
  | failed (f : SubmitFailure)
  | verified (event_id : String) (txHash : Option String)  -- 200 `status: 'verified'`
deriving DecidableEq, Repr

/-- Data flowing from the read half into the write half of the handler. -/
structure ValidatedSubmission where
  req_sid : String
  dp_id : String
  session : Session
  challenge : Challenge
  sigStr : String
  evidence : List String
deriving DecidableEq, Repr

def submitPhase1 (C : CryptoOracle) (req : SubmitRequest) (db : DB) (now : Int) :
    Except SubmitFailure ValidatedSubmission :=
  match req.session_id, req.dp_id, req.signed_blob with
  | some sid, some dpid, some blob =>
    if sid == "" || dpid == "" then .error .missingFields
    else
      match db.getSession sid with
      | none => .error .sessionNotFound
      | some session =>
        match db.getChallenge sid dpid with
        | none => .error .noActiveChallenge
        | some challenge =>
          if now > challenge.expires_at then .error .challengeExpired
          else
            match db.getDPKey dpid with
            | none => .error .dpNotRegistered
            | some dpKey =>
              match blob with
              | .undecodable => .error .internalError
              | .decodes msg sigVal =>
                if verifySignature C (.jstr dpKey.public_key) msg sigVal then
                  match sigVal with
                  | .jstr sigStr =>
                    match msg with
                    | .str m =>
                      match m.parsed with
                      | none => .error .internalError  -- JSON.parse(message) throws
                      | some fields =>
                        if fields.session_id == some sid
                            && fields.challenge_nonce == some challenge.challenge_nonce then
                          .ok { req_sid := sid, dp_id := dpid, session := session,
                                challenge := challenge, sigStr := sigStr,
                                evidence := req.evidence_hashes }
                        else .error .messageMismatch
                    -- unreachable: `verifySignature` is false on non-string messages
                    | .nonstr => .error .internalError
                  -- unreachable: `verifySignature` is false on non-string signatures
                  | .nonstr => .error .invalidSignature
                else .error .invalidSignature
  | _, _, _ => .error .missingFields

/-- The write half: consume the challenge, insert the event, complete
the session, then try to anchor.  `event_id` models `generateId('evt')`,
`tsIso`/`recvIso`/`anchoredIso` the three `new Date().toISOString()`
calls, `txHash` the transaction receipt hash, `sender`/`blockTime` the
on-chain `msg.sender`/`block.timestamp`.  A ledger revert is caught and
the response is returned without an anchor (`txHash = null`). -/
def submitPhase2 (C : CryptoOracle) (v : ValidatedSubmission) (db : DB)
    (ledger : Option Ledger) (event_id tsIso recvIso anchoredIso txHash sender : String)
    (blockTime : Int) : SubmitResult × DB × Option Ledger :=
  let db1 := db.markChallengeUsed v.challenge.challenge_id
  let eventData : EventData :=
    { event_id := event_id, session_id := v.req_sid, order_id := v.session.order_id,
      customer_id := v.session.customer_id, dp_id := v.dp_id,
      ephemeral_token_hash := "sha256:" ++ C.hash v.session.ephemeral_token,
      challenge_nonce := v.challenge.challenge_nonce, dp_signature := v.sigStr,
      evidence_hashes := jsonArr v.evidence, timestamp := tsIso,
      backend_received_at := recvIso }
  let db2 := db1.createDeliveryEvent eventData
  let db3 := db2.updateSessionStatus v.req_sid "completed"
  match ledger with
  | none => (.verified event_id none, db3, none)
  | some L =>
    let anchor_hash := "0x" ++ C.hash (canonicalizeEvent eventData)
    match L.storeAnchor sender blockTime anchor_hash event_id with
    | .ok L2 =>
      (.verified event_id (some txHash),
       db3.updateEventAnchor event_id anchor_hash txHash anchoredIso, some L2)
    | .error _ => (.verified event_id none, db3, some L)

def submitDeliveries (C : CryptoOracle) (req : SubmitRequest) (db : DB)
    (ledger : Option Ledger) (now : Int)
    (event_id tsIso recvIso anchoredIso txHash sender : String) (blockTime : Int) :
    SubmitResult × DB × Option Ledger :=
  match submitPhase1 C req db now with
  | .error f => (.failed f, db, ledger)
  | .ok v => submitPhase2 C v db ledger event_id tsIso recvIso anchoredIso txHash sender blockTime

/-! ### `GET /api/v1/deliveries/:event_id/verify` -/

structure VerificationReport where
  event_id : String
  session_id : String
  order_id : String
  dp_id : String
  timestamp : String
  status : String
  tx_hash : Option String
  anchor_hash : Option String
  anchored_at : Option String
  blockchain_verified : Bool
deriving DecidableEq, Repr

/-- `none` is the 404 `Event not found` response. -/
def verifyHandler (db : DB) (ledger : Option Ledger) (event_id : String) :
    Option VerificationReport :=
  match db.getDeliveryEvent event_id with
  | none => none
  | some ev =>
    let bv :=
      match ledger, ev.anchor_hash with
      | some L, some h => if h == "" then false else L.isAnchored h
      | _, _ => false
    some { event_id := ev.event_id, session_id := ev.session_id, order_id := ev.order_id,
           dp_id := ev.dp_id, timestamp := ev.timestamp, status := ev.status,
           tx_hash := ev.tx_hash, anchor_hash := ev.anchor_hash,
           anchored_at := ev.anchored_at, blockchain_verified := bv }

/-- The non-anchoring fields of a stored row, as the `eventData` object
they were inserted from (for recomputing the canonical hash). -/
def rowFields (r : DeliveryRow) : EventData :=
  { event_id := r.event_id, session_id := r.session_id, order_id := r.order_id,
    customer_id := r.customer_id, dp_id := r.dp_id,
    ephemeral_token_hash := r.ephemeral_token_hash, challenge_nonce := r.challenge_nonce,
    dp_signature := r.dp_signature, evidence_hashes := r.evidence_hashes,
    timestamp := r.timestamp, backend_received_at := r.backend_received_at }

/-! ### Execution models for proof submission

`runSeq` executes whole requests back to back (each request's reads and
writes are uninterrupted).  Alongside each result it records which
challenge row the submission consumed (the `getChallenge` result on the
success path, i.e. the row passed to `markChallengeUsed`). -/

structure ReqCtx where
  req : SubmitRequest
  event_id : String
  tsIso : String
  recvIso : String
  anchoredIso : String
  txHash : String
  sender : String
  blockTime : Int
deriving DecidableEq, Repr

def consumedChallenge (C : CryptoOracle) (req : SubmitRequest) (db : DB) (now : Int) :
    Option String :=
  match submitPhase1 C req db now with
  | .ok v => some v.challenge.challenge_id
  | .error _ => none

def runSeq (C : CryptoOracle) (ctxs : List ReqCtx) (db : DB) (ledger : Option Ledger)
    (now : Int) : List (SubmitResult × Option String) × DB × Option Ledger :=
  match ctxs with
  | [] => ([], db, ledger)
  | k :: rest =>
    let consumed := consumedChallenge C k.req db now
    let step := submitDeliveries C k.req db ledger now k.event_id k.tsIso k.recvIso
      k.anchoredIso k.txHash k.sender k.blockTime
    let tail := runSeq C rest step.2.1 step.2.2 now
    ((step.1, consumed) :: tail.1, tail.2)

/-- Interleaved execution of two concurrently handled submissions in
which both requests complete their read half before either performs its
writes (the schedule `A.reads, B.reads, A.writes, B.writes`, available
because the handler suspends at each awaited store call). -/
def runInterleaved (C : CryptoOracle) (A B : ReqCtx) (db : DB) (ledger : Option Ledger)
    (now : Int) : (SubmitResult × SubmitResult) × DB × Option Ledger :=
  let ra := submitPhase1 C A.req db now
  let rb := submitPhase1 C B.req db now
  let stepA :=
    match ra with
    | .error f => (SubmitResult.failed f, db, ledger)
    | .ok v => submitPhase2 C v db ledger A.event_id A.tsIso A.recvIso A.anchoredIso
        A.txHash A.sender A.blockTime
  let stepB :=
    match rb with
    | .error f => (SubmitResult.failed f, stepA.2.1, stepA.2.2)
    | .ok v => submitPhase2 C v stepA.2.1 stepA.2.2 B.event_id B.tsIso B.recvIso B.anchoredIso
        B.txHash B.sender B.blockTime
  ((stepA.1, stepB.1), stepB.2)


/-! ### Concrete fixtures for claim evaluation

`demoCrypto` instantiates the external-library oracle for concrete runs:
a tagging stand-in digest, a key parser, and a signature check that
accepts (the claims evaluated with it concern the handler's control
flow, not the mathematics of secp256k1). -/

set_option maxRecDepth 100000

deriving instance DecidableEq for Except

def demoCrypto : CryptoOracle :=
  { hash := fun s => "sha(" ++ s ++ ")",
    keyFromPublic := fun pk => if pk = "badkey" then none else some pk,
    ecVerify := fun _ _ _ _ => true }

/-- A well-formed 128-hex-character signature string. -/
def sig128 : String := String.mk (List.replicate 128 'a')

def sessA : Session :=
  { session_id := "s_1", customer_id := "cus_1", order_id := "ord_1",
    ephemeral_token := "tok_1", token_type := "BLE", created_at := 0,
    expires_at := 300000, status := "active" }

def chalA : Challenge :=
  { challenge_id := "ch_1", session_id := "s_1", dp_id := "dp_1",
    challenge_nonce := "n_1", created_at := 1000, expires_at := 61000, used := false }

def keyA : DPKeyRow :=
  { dp_id := "dp_1", public_key := "pk_1", key_type := "secp256k1",
    registered_at := 0, status := "active" }

def dbA : DB := { sessions := [sessA], challenges := [chalA], events := [], dpKeys := [keyA] }

def ledger0 : Ledger := { anchored := [], log := [] }

/-- A self-consistent message for session `s_1` / nonce `n_1` whose
embedded secret-hash (`sha256:WRONG`) is NOT the hash of the session's
stored ephemeral token. -/
def msgC1 : StrMessage :=
  { raw := "rawC1",
    parsed := some { session_id := some "s_1", challenge_nonce := some "n_1",
                     ephemeral_token_hash := some "sha256:WRONG",
                     dp_id := some "dp_1", timestamp := some "2025-01-01T00:00:02.000Z" } }

def reqC1 : SubmitRequest :=
  { session_id := some "s_1", dp_id := some "dp_1",
    signed_blob := some (.decodes (.str msgC1) (.jstr sig128)), evidence_hashes := [] }

def outC1 : SubmitResult × DB × Option Ledger :=
  submitDeliveries demoCrypto reqC1 dbA (some ledger0) 2000 "evt_1" "ts1" "rc1" "an1"
    "0xtx1" "0xsender" 5

/-- C1: the deliveries handler performs no secret-binding check.  A
proof whose embedded secret-hash (`sha256:WRONG`) differs from the hash
of the session's stored secret is accepted: the response is `verified`,
a `DeliveryEvent` is minted (with the hash recomputed server-side from
the session, ignoring the embedded value), and no `SecretMismatch`-like
failure exists.  The signature is valid (oracle accepts) and the message
carries the correct `session_id` and challenge nonce. -/
theorem C1_secret_mismatch_accepted :
    outC1.1 = SubmitResult.verified "evt_1" (some "0xtx1")
    ∧ (outC1.2.1.getDeliveryEvent "evt_1").isSome = true
    ∧ msgC1.parsed = some { session_id := some "s_1", challenge_nonce := some "n_1",
                            ephemeral_token_hash := some "sha256:WRONG",
                            dp_id := some "dp_1", timestamp := some "2025-01-01T00:00:02.000Z" }
    ∧ ("sha256:WRONG" : String) ≠ "sha256:" ++ demoCrypto.hash sessA.ephemeral_token := by
  decide

/-! Fixture for C2: a session past its `expires_at` and already in state
`completed` (its first challenge was consumed by an earlier proof), with
a second, still-valid unused challenge issued before completion. -/

def sessB : Session :=
  { session_id := "s_2", customer_id := "cus_2", order_id := "ord_2",
    ephemeral_token := "tok_2", token_type := "BLE", created_at := 0,
    expires_at := 99500, status := "completed" }

def chalB1 : Challenge :=
  { challenge_id := "ch_b1", session_id := "s_2", dp_id := "dp_1",
    challenge_nonce := "n_b1", created_at := 50, expires_at := 60050, used := true }

def chalB2 : Challenge :=
  { challenge_id := "ch_b2", session_id := "s_2", dp_id := "dp_1",
    challenge_nonce := "n_b2", created_at := 99000, expires_at := 159000, used := false }

def dbB : DB :=
  { sessions := [sessB], challenges := [chalB1, chalB2], events := [], dpKeys := [keyA] }

def msgC2 : StrMessage :=
  { raw := "rawC2",
    parsed := some { session_id := some "s_2", challenge_nonce := some "n_b2",
                     ephemeral_token_hash := some "sha256:sha(tok_2)",
                     dp_id := some "dp_1", timestamp := some "2025-01-01T00:01:40.000Z" } }

def reqC2 : SubmitRequest :=
  { session_id := some "s_2", dp_id := some "dp_1",
    signed_blob := some (.decodes (.str msgC2) (.jstr sig128)), evidence_hashes := [] }

def outC2 : SubmitResult × DB × Option Ledger :=
  submitDeliveries demoCrypto reqC2 dbB (some ledger0) 100000 "evt_2" "ts2" "rc2" "an2"
    "0xtx2" "0xsender" 7

/-- C2: the deliveries handler checks only that the session row exists
— not that it is `active` or unexpired.  A proof submitted at
`now = 100000`, after the session's `expires_at = 99500` and with the
session already `completed`, is accepted against a still-valid
challenge: the response is `verified` and a second `DeliveryEvent` is
minted for the session, instead of the `SessionInvalid` failure the
specification requires. -/
theorem C2_expired_session_accepted :
    outC2.1 = SubmitResult.verified "evt_2" (some "0xtx2")
    ∧ (outC2.2.1.getDeliveryEvent "evt_2").isSome = true
    ∧ (100000 : Int) > sessB.expires_at
    ∧ sessB.status ≠ "active" := by
  decide

/-- C4 counterexample: the ledger write is not idempotent.  Anchoring
`0xh` once succeeds; submitting the same hash a second time errors with
the `require` message `Anchor already exists` instead of succeeding
without effect. -/
theorem C4_second_store_errors :
    ledger0.storeAnchor "0xs" 1 "0xh" "evt_a"
      = .ok { anchored := ["0xh"],
              log := [{ anchorHash := "0xh", actor := "0xs", timestamp := 1,
                        eventId := "evt_a" }] }
    ∧ (Ledger.storeAnchor
        { anchored := ["0xh"],
          log := [{ anchorHash := "0xh", actor := "0xs", timestamp := 1,
                    eventId := "evt_a" }] }
        "0xs2" 2 "0xh" "evt_b")
      = .error "Anchor already exists" := by
  decide

def evE1 : EventData :=
  { event_id := "evt_a", session_id := "s", order_id := "o", customer_id := "c",
    dp_id := "d", ephemeral_token_hash := "h", challenge_nonce := "n",
    dp_signature := "sig", evidence_hashes := "[]", timestamp := "t",
    backend_received_at := "b" }

def evE2 : EventData := { evE1 with event_id := "evt_b" }

/-- C5 counterexample: the canonical serialization omits `event_id`.
Two events that differ only in their `event_id` produce byte-identical
input to the hash, so changing this non-anchoring field does not change
`anchor_hash`. -/
theorem C5_event_id_not_serialized :
    canonicalizeEvent evE1 = canonicalizeEvent evE2
    ∧ evE1.event_id ≠ evE2.event_id := by
  decide

def emptyDB : DB := { sessions := [], challenges := [], events := [], dpKeys := [] }

/-- C7 counterexample: `ttl_seconds` is not validated.  An activation
with `ttl_seconds = -5` is accepted (no `InvalidInput`), creating a
session that is born expired (`expires_at = created_at - 5000`). -/
theorem C7_nonpositive_ttl_accepted :
    (createSessionHandler
        { customer_id := some "cus_7", order_id := some "ord_7", ttl_seconds := some (-5) }
        emptyDB 1000 "s_7" "tok_7").1
      = SessionResult.created
          { session_id := "s_7", customer_id := "cus_7", order_id := "ord_7",
            ephemeral_token := "tok_7", token_type := "BLE", created_at := 1000,
            expires_at := -4000, status := "active" } := by
  decide

def reqC8a : SubmitRequest :=
  { session_id := some "s_1", dp_id := some "dp_1",
    signed_blob := some SignedBlob.undecodable, evidence_hashes := [] }

def reqC8b : SubmitRequest :=
  { session_id := some "nosuch", dp_id := some "dp_1",
    signed_blob := some SignedBlob.undecodable, evidence_hashes := [] }

/-- C8 counterexample: a proof bundle that fails to decode is reported
as the generic 500 `Internal server error` (the `JSON.parse` throw is
swallowed by the handler's catch-all), not a typed `MalformedProof`; and
the structural check is not the first step — with a nonexistent session
the same undecodable bundle yields `Session not found`, so the session
lookup precedes the decode. -/
theorem C8_undecodable_blob_generic_error :
    (submitDeliveries demoCrypto reqC8a dbA (some ledger0) 2000 "evt_8" "ts" "rc" "an"
        "0xtx" "0xs" 5).1
      = SubmitResult.failed SubmitFailure.internalError
    ∧ (submitDeliveries demoCrypto reqC8b dbA (some ledger0) 2000 "evt_8" "ts" "rc" "an"
        "0xtx" "0xs" 5).1
      = SubmitResult.failed SubmitFailure.sessionNotFound := by
  decide

def dbC9 : DB := { sessions := [], challenges := [], events := [], dpKeys := [keyA] }

def sessionStepC9 : SessionResult × DB :=
  createSessionHandler
    { customer_id := some "cus_9", order_id := some "ord_9", ttl_seconds := some 30 }
    dbC9 0 "s_9" "tok_9"

def challengeStepC9 : ChallengeResult × DB :=
  createChallengeHandler "s_9" (some "dp_1") sessionStepC9.2 0 "ch_9"
    (List.replicate 16 (0 : Fin 256))

/-- C9 counterexample: the challenge validity window (a fixed 60 s) is
not strictly shorter than every session TTL permitted at activation.
Activation accepts `ttl_seconds = 30` (TTL is unvalidated), producing a
session whose whole lifetime (30000 ms) is shorter than the challenge
window (60000 ms) issued for it. -/
theorem C9_window_longer_than_ttl :
    sessionStepC9.1
      = SessionResult.created
          { session_id := "s_9", customer_id := "cus_9", order_id := "ord_9",
            ephemeral_token := "tok_9", token_type := "BLE", created_at := 0,
            expires_at := 30000, status := "active" }
    ∧ challengeStepC9.1
      = ChallengeResult.issued
          { challenge_id := "ch_9", session_id := "s_9", dp_id := "dp_1",
            challenge_nonce := hexOfBytes (List.replicate 16 (0 : Fin 256)),
            created_at := 0, expires_at := 60000, used := false }
    ∧ ¬ ((60000 : Int) < 30000 - 0) := by
  decide


/-! ### Challenge consumption: supporting lemmas -/

theorem foldl_pickLatest_prop {P : Challenge → Prop} :
    ∀ (l : List Challenge) (acc : Option Challenge),
      (∀ a, acc = some a → P a) → (∀ c ∈ l, P c) →
      ∀ r, l.foldl pickLatest acc = some r → P r := by
  intro l
  induction l with
  | nil => intro acc hacc _ r h; exact hacc r h
  | cons c cs ih =>
    intro acc hacc hl r h
    simp only [List.foldl_cons] at h
    refine ih (pickLatest acc c) ?_ ?_ r h
    · intro a ha
      cases acc with
      | none =>
        simp only [pickLatest, Option.some.injEq] at ha
        exact ha ▸ hl c (List.mem_cons_self c cs)
      | some a0 =>
        simp only [pickLatest] at ha
        split at ha
        · exact (Option.some.inj ha) ▸ hl c (List.mem_cons_self c cs)
        · exact (Option.some.inj ha) ▸ hacc a0 rfl
    · intro x hx
      exact hl x (List.mem_cons_of_mem _ hx)

theorem getChallenge_mem {db : DB} {sid dpid : String} {ch : Challenge}
    (h : db.getChallenge sid dpid = some ch) :
    ch ∈ db.challenges ∧ ch.used = false := by
  unfold DB.getChallenge at h
  refine foldl_pickLatest_prop (P := fun x => x ∈ db.challenges ∧ x.used = false)
    _ none (by intro a ha; cases ha) ?_ ch h
  intro x hx
  have hx' := List.mem_filter.mp hx
  refine ⟨hx'.1, ?_⟩
  have := hx'.2
  simp only [Bool.and_eq_true, beq_iff_eq] at this
  exact this.2

theorem submitPhase1_ok {C : CryptoOracle} {req : SubmitRequest} {db : DB} {now : Int}
    {v : ValidatedSubmission} (h : submitPhase1 C req db now = .ok v) :
    db.getChallenge v.req_sid v.dp_id = some v.challenge := by
  unfold submitPhase1 at h
  split at h
  case h_2 => cases h
  next =>
    rename_i sid dpid blob heqa heqb heqc
    split at h
    · cases h
    · split at h
      · cases h
      · split at h
        · cases h
        · split at h
          · cases h
          · split at h
            · cases h
            · split at h
              · cases h
              · split at h
                · split at h
                  · split at h
                    · split at h
                      · cases h
                      · split at h
                        · cases h
                          assumption
                        · cases h
                    · cases h
                  · cases h
                · cases h

/-- One whole sequential run of the deliveries handler either leaves the
challenges table unchanged and consumes nothing, or consumes exactly the
unused challenge row selected by `getChallenge`, the table becoming its
`markChallengeUsed` image. -/
theorem submit_step (C : CryptoOracle) (req : SubmitRequest) (db : DB) (ledger : Option Ledger)
    (now : Int) (eid ts rc an tx sd : String) (bt : Int) :
    (consumedChallenge C req db now = none ∧
      (submitDeliveries C req db ledger now eid ts rc an tx sd bt).2.1.challenges
        = db.challenges)
    ∨ (∃ ch, consumedChallenge C req db now = some ch.challenge_id ∧
        ch ∈ db.challenges ∧ ch.used = false ∧
        (submitDeliveries C req db ledger now eid ts rc an tx sd bt).2.1.challenges
          = (db.markChallengeUsed ch.challenge_id).challenges) := by
  cases h : submitPhase1 C req db now with
  | error f =>
    left
    refine ⟨?_, ?_⟩
    · unfold consumedChallenge
      rw [h]
    · unfold submitDeliveries
      rw [h]
  | ok v =>
    right
    have hg := submitPhase1_ok h
    have hmem := getChallenge_mem hg
    refine ⟨v.challenge, ?_, hmem.1, hmem.2, ?_⟩
    · unfold consumedChallenge
      rw [h]
    · unfold submitDeliveries
      rw [h]
      show (submitPhase2 C v db ledger eid ts rc an tx sd bt).2.1.challenges
        = (db.markChallengeUsed v.challenge.challenge_id).challenges
      unfold submitPhase2
      cases ledger with
      | none => rfl
      | some L =>
        dsimp only
        split <;> rfl

/-- Whether the store contains a used challenge with the given id. -/
def usedOf (db : DB) (cid : String) : Bool :=
  db.challenges.any (fun ch => ch.challenge_id == cid && ch.used)

theorem usedOf_eq_of_challenges_eq {db1 db2 : DB} (h : db1.challenges = db2.challenges)
    (c : String) : usedOf db1 c = usedOf db2 c := by
  simp [usedOf, h]

theorem usedOf_mono_mark (db : DB) (cid c : String) (h : usedOf db c = true) :
    usedOf (db.markChallengeUsed cid) c = true := by
  simp only [usedOf, List.any_eq_true] at h ⊢
  obtain ⟨ch, hm, hc⟩ := h
  simp only [DB.markChallengeUsed]
  simp only [Bool.and_eq_true, beq_iff_eq] at hc
  refine ⟨if (ch.challenge_id == cid) = true then { ch with used := true } else ch, ?_, ?_⟩
  · exact List.mem_map_of_mem
      (fun x => if x.challenge_id == cid then { x with used := true } else x) hm
  · by_cases hcid : (ch.challenge_id == cid) = true
    · rw [if_pos hcid]
      simp [hc.1]
    · rw [if_neg hcid]
      simp [hc.1, hc.2]

theorem usedOf_mark_self (db : DB) (ch : Challenge) (hm : ch ∈ db.challenges) :
    usedOf (db.markChallengeUsed ch.challenge_id) ch.challenge_id = true := by
  simp only [usedOf, DB.markChallengeUsed, List.any_eq_true]
  refine ⟨{ ch with used := true },
    ?_, by simp⟩
  have := List.mem_map_of_mem
    (fun x => if x.challenge_id == ch.challenge_id then { x with used := true } else x) hm
  simpa using this

theorem not_used_of_mem_unused (db : DB) (ch : Challenge)
    (hnd : (db.challenges.map Challenge.challenge_id).Nodup)
    (hm : ch ∈ db.challenges) (hu : ch.used = false) :
    usedOf db ch.challenge_id = false := by
  cases h : usedOf db ch.challenge_id with
  | false => rfl
  | true =>
    exfalso
    simp only [usedOf, List.any_eq_true, Bool.and_eq_true, beq_iff_eq] at h
    obtain ⟨ch2, hm2, hid, hu2⟩ := h
    have : ch2 = ch := List.inj_on_of_nodup_map hnd hm2 hm hid
    rw [this] at hu2
    rw [hu] at hu2
    exact Bool.false_ne_true hu2

theorem nodup_mark (db : DB) (cid : String)
    (hnd : (db.challenges.map Challenge.challenge_id).Nodup) :
    ((db.markChallengeUsed cid).challenges.map Challenge.challenge_id).Nodup := by
  simp only [DB.markChallengeUsed, List.map_map]
  have hfe : (Challenge.challenge_id ∘
      fun c => if c.challenge_id == cid then { c with used := true } else c)
      = Challenge.challenge_id := by
    funext c
    by_cases h : (c.challenge_id == cid) = true
    · simp only [Function.comp_apply, if_pos h]
    · simp only [Function.comp_apply, if_neg h]
  rw [hfe]
  exact hnd


theorem seq_consume_bound (C : CryptoOracle) :
    ∀ (ctxs : List ReqCtx) (db : DB) (ledger : Option Ledger) (now : Int) (c : String),
      (db.challenges.map Challenge.challenge_id).Nodup →
      ((runSeq C ctxs db ledger now).1.filter (fun p => p.2 == some c)).length
        ≤ (if usedOf db c then 0 else 1) := by
  intro ctxs
  induction ctxs with
  | nil =>
    intro db ledger now c hnd
    simp only [runSeq, List.filter_nil, List.length_nil]
    split <;> omega
  | cons k rest ih =>
    intro db ledger now c hnd
    simp only [runSeq]
    rcases submit_step C k.req db ledger now k.event_id k.tsIso k.recvIso k.anchoredIso
        k.txHash k.sender k.blockTime with ⟨hcon, hch⟩ | ⟨ch, hcon, hm, hu, hch⟩
    · have hnd2 : (((submitDeliveries C k.req db ledger now k.event_id k.tsIso k.recvIso
          k.anchoredIso k.txHash k.sender k.blockTime).2.1.challenges).map
            Challenge.challenge_id).Nodup := by
        rw [hch]; exact hnd
      have htail := ih (submitDeliveries C k.req db ledger now k.event_id k.tsIso k.recvIso
          k.anchoredIso k.txHash k.sender k.blockTime).2.1
        (submitDeliveries C k.req db ledger now k.event_id k.tsIso k.recvIso
          k.anchoredIso k.txHash k.sender k.blockTime).2.2 now c hnd2
      rw [usedOf_eq_of_challenges_eq hch c] at htail
      simp only [List.filter_cons, hcon]
      simpa using htail
    · simp only [List.filter_cons, hcon]
      have hnd2 : (((submitDeliveries C k.req db ledger now k.event_id k.tsIso k.recvIso
          k.anchoredIso k.txHash k.sender k.blockTime).2.1.challenges).map
            Challenge.challenge_id).Nodup := by
        rw [hch]; exact nodup_mark db ch.challenge_id hnd
      have htail := ih (submitDeliveries C k.req db ledger now k.event_id k.tsIso k.recvIso
          k.anchoredIso k.txHash k.sender k.blockTime).2.1
        (submitDeliveries C k.req db ledger now k.event_id k.tsIso k.recvIso
          k.anchoredIso k.txHash k.sender k.blockTime).2.2 now c hnd2
      by_cases hcc : ch.challenge_id = c
      · subst hcc
        have hpre : usedOf db ch.challenge_id = false :=
          not_used_of_mem_unused db ch hnd hm hu
        have hpost : usedOf (submitDeliveries C k.req db ledger now k.event_id k.tsIso
            k.recvIso k.anchoredIso k.txHash k.sender k.blockTime).2.1 ch.challenge_id
            = true := by
          rw [usedOf_eq_of_challenges_eq hch]
          exact usedOf_mark_self db ch hm
        rw [hpost] at htail
        rw [hpre]
        have h1 : (if (true = true) then (0 : Nat) else 1) = 0 := by simp
        rw [h1] at htail
        rw [if_pos (by simp), if_neg (by simp)]
        simp only [List.length_cons]
        omega
      · have hne : ((some ch.challenge_id == some c)) = false := by
          simp [hcc]
        rw [hne]
        cases h0 : usedOf db c with
        | false =>
          rw [if_neg (by simp), if_neg (by simp)]
          exact htail.trans (by split <;> omega)
        | true =>
          have hpost : usedOf (submitDeliveries C k.req db ledger now k.event_id k.tsIso
              k.recvIso k.anchoredIso k.txHash k.sender k.blockTime).2.1 c = true := by
            rw [usedOf_eq_of_challenges_eq hch]
            exact usedOf_mono_mark db ch.challenge_id c h0
          rw [hpost] at htail
          rw [if_neg (by simp)]
          exact htail


def msgC3 : StrMessage :=
  { raw := "rawC3",
    parsed := some { session_id := some "s_1", challenge_nonce := some "n_1",
                     ephemeral_token_hash := some "sha256:sha(tok_1)",
                     dp_id := some "dp_1", timestamp := some "2025-01-01T00:00:02.000Z" } }

def reqC3 : SubmitRequest :=
  { session_id := some "s_1", dp_id := some "dp_1",
    signed_blob := some (.decodes (.str msgC3) (.jstr sig128)), evidence_hashes := [] }

def ctxC3a : ReqCtx :=
  { req := reqC3, event_id := "evt_r1", tsIso := "ts", recvIso := "rc", anchoredIso := "an",
    txHash := "0xtxA", sender := "0xs", blockTime := 5 }

def ctxC3b : ReqCtx :=
  { req := reqC3, event_id := "evt_r2", tsIso := "ts", recvIso := "rc", anchoredIso := "an",
    txHash := "0xtxB", sender := "0xs", blockTime := 5 }

/-- C3 counterexample: challenge consumption is a read-then-write pair
(`getChallenge` … `markChallengeUsed`), not an atomic conditional
update, and each `await` is a suspension point.  In the interleaving
where both concurrently submitted proofs pass their read half before
either writes, BOTH succeed against the single challenge `ch_1`: two
`DeliveryEvent`s referencing the same challenge nonce are minted, so
"at most one proof submission ever succeeds per challenge" is false for
the code under concurrent submission (the second anchoring call reverts,
which the handler swallows, so the second event is simply unanchored). -/
theorem C3_race_two_successes :
    (runInterleaved demoCrypto ctxC3a ctxC3b dbA (some ledger0) 2000).1
      = (SubmitResult.verified "evt_r1" (some "0xtxA"), SubmitResult.verified "evt_r2" none)
    ∧ ((runInterleaved demoCrypto ctxC3a ctxC3b dbA (some ledger0) 2000).2.1.events.filter
        (fun e => e.challenge_nonce == "n_1")).length = 2
    ∧ dbA.challenges = [chalA]
    ∧ chalA.used = false := by
  decide

/-- C3 (amended): under sequential (non-overlapping) proof submissions
each challenge row is consumed at most once — a success marks exactly
the `getChallenge`-selected row used, `used` is never reset, and a later
submission can never again succeed on that row (it fails with
no-active-challenge or message-data-mismatch) — so at most one
submission in any sequential run consumes a given challenge.  The
concurrent version of the claim is false for the code
(`C3_race_two_successes`): the read-then-write consumption lets two
overlapping successes on one challenge. -/
theorem C3_seq_at_most_one (C : CryptoOracle) (ctxs : List ReqCtx) (db : DB)
    (ledger : Option Ledger) (now : Int) (c : String)
    (hnd : (db.challenges.map Challenge.challenge_id).Nodup) :
    ((runSeq C ctxs db ledger now).1.filter (fun p => p.2 == some c)).length ≤ 1 := by
  refine (seq_consume_bound C ctxs db ledger now c hnd).trans ?_
  split <;> omega

/-- Witness: in the sequential run of the same two valid proofs as the
race, at most one (here: exactly the first) consumes challenge `ch_1`. -/
theorem C3_seq_at_most_one_witness :
    ((runSeq demoCrypto [ctxC3a, ctxC3b] dbA (some ledger0) 2000).1.filter
        (fun p => p.2 == some "ch_1")).length ≤ 1 :=
  C3_seq_at_most_one demoCrypto [ctxC3a, ctxC3b] dbA (some ledger0) 2000 "ch_1" (by decide)


/-! ### Injectivity of the canonical serialization (C5) -/

theorem string_data_append (a b : String) : (a ++ b).data = a.data ++ b.data := by
  cases a
  cases b
  rfl

theorem string_data_ext {a b : String} (h : a.data = b.data) : a = b := by
  cases a
  cases b
  exact congrArg String.mk h

theorem jsonStrLit_data (s : String) :
    (jsonStrLit s).data = '"' :: (escapeChars s.data ++ ['"']) := rfl

theorem strLit_cancel (s₁ s₂ : String) (r₁ r₂ : List Char)
    (h : (jsonStrLit s₁).data ++ r₁ = (jsonStrLit s₂).data ++ r₂) : s₁ = s₂ ∧ r₁ = r₂ := by
  rw [jsonStrLit_data, jsonStrLit_data] at h
  simp only [List.cons_append, List.append_assoc, List.singleton_append,
    List.cons.injEq, true_and] at h
  have hc := escapeChars_quote_cancel _ _ _ _ h
  exact ⟨string_data_ext hc.1, hc.2⟩

theorem evSegment_cancel (s₁ s₂ : String) (r₁ r₂ : List Char)
    (h : (if s₁ = "" then String.data "[]" else (jsonStrLit s₁).data) ++ r₁
       = (if s₂ = "" then String.data "[]" else (jsonStrLit s₂).data) ++ r₂) :
    s₁ = s₂ ∧ r₁ = r₂ := by
  have hbr : String.data "[]" = ['[', ']'] := rfl
  by_cases c₁ : s₁ = "" <;> by_cases c₂ : s₂ = ""
  · rw [if_pos c₁, if_pos c₂] at h
    exact ⟨c₁.trans c₂.symm, List.append_cancel_left h⟩
  · rw [if_pos c₁, if_neg c₂, hbr, jsonStrLit_data] at h
    simp at h
  · rw [if_neg c₁, if_pos c₂, hbr, jsonStrLit_data] at h
    simp at h
  · rw [if_neg c₁, if_neg c₂] at h
    exact strLit_cancel _ _ _ _ h

/-- C5 (amended): the canonical serialization is a deterministic,
injective function of the ten serialized fields — every non-anchoring
field of the event except `event_id`, in fixed source order.  Two events
produce byte-identical hash input exactly when they agree on all ten
fields; in particular a change to any serialized field changes the hash
input, while a change to `event_id` never does
(`C5_event_id_not_serialized`). -/
theorem C5_canonical_inj_iff (e₁ e₂ : EventData) :
    canonicalizeEvent e₁ = canonicalizeEvent e₂ ↔
      (e₁.session_id = e₂.session_id ∧ e₁.order_id = e₂.order_id ∧
       e₁.customer_id = e₂.customer_id ∧ e₁.dp_id = e₂.dp_id ∧
       e₁.ephemeral_token_hash = e₂.ephemeral_token_hash ∧
       e₁.challenge_nonce = e₂.challenge_nonce ∧ e₁.dp_signature = e₂.dp_signature ∧
       e₁.evidence_hashes = e₂.evidence_hashes ∧ e₁.timestamp = e₂.timestamp ∧
       e₁.backend_received_at = e₂.backend_received_at) := by
  constructor
  · intro h
    have hd := congrArg String.data h
    simp only [canonicalizeEvent, string_data_append, List.append_assoc,
      apply_ite String.data] at hd
    have hd1 := List.append_cancel_left hd
    obtain ⟨h1, hd2⟩ := strLit_cancel _ _ _ _ hd1
    have hd2' := List.append_cancel_left hd2
    obtain ⟨h2, hd3⟩ := strLit_cancel _ _ _ _ hd2'
    have hd3' := List.append_cancel_left hd3
    obtain ⟨h3, hd4⟩ := strLit_cancel _ _ _ _ hd3'
    have hd4' := List.append_cancel_left hd4
    obtain ⟨h4, hd5⟩ := strLit_cancel _ _ _ _ hd4'
    have hd5' := List.append_cancel_left hd5
    obtain ⟨h5, hd6⟩ := strLit_cancel _ _ _ _ hd5'
    have hd6' := List.append_cancel_left hd6
    obtain ⟨h6, hd7⟩ := strLit_cancel _ _ _ _ hd6'
    have hd7' := List.append_cancel_left hd7
    obtain ⟨h7, hd8⟩ := strLit_cancel _ _ _ _ hd7'
    have hd8' := List.append_cancel_left hd8
    obtain ⟨h8, hd9⟩ := evSegment_cancel _ _ _ _ hd8'
    have hd9' := List.append_cancel_left hd9
    obtain ⟨h9, hd10⟩ := strLit_cancel _ _ _ _ hd9'
    have hd10' := List.append_cancel_left hd10
    obtain ⟨h10, -⟩ := strLit_cancel _ _ _ _ hd10'
    exact ⟨h1, h2, h3, h4, h5, h6, h7, h8, h9, h10⟩
  · intro h
    obtain ⟨h1, h2, h3, h4, h5, h6, h7, h8, h9, h10⟩ := h
    unfold canonicalizeEvent
    rw [h1, h2, h3, h4, h5, h6, h7, h8, h9, h10]


/-! ### Ledger write behaviour (C4) -/

theorem batchStep_preserves (sender : String) (t : Int) (h : String) (acc : Ledger)
    (p : String × String) (ha : acc.isAnchored h = true) :
    (batchStep sender t acc p).isAnchored h = true
    ∧ (batchStep sender t acc p).logCount h = acc.logCount h := by
  unfold batchStep
  by_cases hc : acc.anchored.contains p.1 = true
  · rw [if_pos hc]
    exact ⟨ha, rfl⟩
  · rw [if_neg hc]
    have hne : p.1 ≠ h := by
      intro he
      rw [he] at hc
      exact hc ha
    constructor
    · exact List.elem_eq_true_of_mem
        (List.mem_append_left _ (List.mem_of_elem_eq_true ha))
    · simp only [Ledger.logCount, List.filter_append, List.length_append]
      have hbeq : (p.1 == h) = false := beq_eq_false_iff_ne.mpr hne
      simp [List.filter, hbeq]

theorem batchFold_preserves (sender : String) (t : Int) (h : String) :
    ∀ (ps : List (String × String)) (acc : Ledger), acc.isAnchored h = true →
      (ps.foldl (batchStep sender t) acc).isAnchored h = true
      ∧ (ps.foldl (batchStep sender t) acc).logCount h = acc.logCount h := by
  intro ps
  induction ps with
  | nil => intro acc ha; exact ⟨ha, rfl⟩
  | cons p ps ih =>
    intro acc ha
    simp only [List.foldl_cons]
    have hstep := batchStep_preserves sender t h acc p ha
    have hrest := ih (batchStep sender t acc p) hstep.1
    exact ⟨hrest.1, hrest.2.trans hstep.2⟩

/-- C4 (amended): the ledger write enforces first-write-wins, not
idempotency.  After a successful `storeAnchor` of a hash: a second
`storeAnchor` of the same hash reverts with `Anchor already exists`
(leaving the state unchanged, so no duplicate record is ever created —
the hash's `AnchorStored` record count stays at one); only the batch
write `storeAnchorBatch` is idempotent, skipping an already-anchored
hash without error and without emitting a duplicate record. -/
theorem C4_store_anchor_spec (L : Ledger) (sender : String) (t : Int) (h eid : String)
    (L' : Ledger) (hok : L.storeAnchor sender t h eid = .ok L') :
    (∀ s2 t2 eid2, L'.storeAnchor s2 t2 h eid2 = .error "Anchor already exists")
    ∧ L'.logCount h = L.logCount h + 1
    ∧ L'.isAnchored h = true
    ∧ (∀ s2 t2 hs eids, hs.length = eids.length →
        ∃ L2, L'.storeAnchorBatch s2 t2 hs eids = .ok L2
          ∧ L2.logCount h = L'.logCount h ∧ L2.isAnchored h = true) := by
  unfold Ledger.storeAnchor at hok
  split at hok
  · cases hok
  next hmem =>
    have hL' : L' = Ledger.mk (L.anchored ++ [h]) (L.log ++ [AnchorEvent.mk h sender t eid]) := by
      cases hok
      rfl
    have hanch : L'.isAnchored h = true := by
      rw [hL']
      exact List.elem_eq_true_of_mem (List.mem_append_right _ (by simp))
    refine ⟨?_, ?_, hanch, ?_⟩
    · intro s2 t2 eid2
      unfold Ledger.storeAnchor
      have hcont : L'.anchored.contains h = true := hanch
      rw [if_pos hcont]
    · rw [hL']
      simp only [Ledger.logCount, List.filter_append, List.length_append]
      have hone : (List.filter (fun e => e.anchorHash == h)
          [AnchorEvent.mk h sender t eid]).length = 1 := by
        simp [List.filter]
      rw [hone]
    · intro s2 t2 hs eids hlen
      unfold Ledger.storeAnchorBatch
      rw [if_neg (by omega)]
      exact ⟨_, rfl, (batchFold_preserves s2 t2 h (hs.zip eids) L' hanch).2,
        (batchFold_preserves s2 t2 h (hs.zip eids) L' hanch).1⟩

def ledgerC4one : Ledger :=
  { anchored := ["0xh"],
    log := [{ anchorHash := "0xh", actor := "0xs", timestamp := 1, eventId := "evt_a" }] }

/-- Witness for `C4_store_anchor_spec` at a concrete ledger state. -/
theorem C4_store_anchor_spec_witness :
    ledgerC4one.storeAnchor "0xz" 3 "0xh" "evt_b" = .error "Anchor already exists"
    ∧ ledgerC4one.logCount "0xh" = ledger0.logCount "0xh" + 1 :=
  ⟨(C4_store_anchor_spec ledger0 "0xs" 1 "0xh" "evt_a" ledgerC4one (by decide)).1 "0xz" 3 "evt_b",
   (C4_store_anchor_spec ledger0 "0xs" 1 "0xh" "evt_a" ledgerC4one (by decide)).2.1⟩


/-! ### Session activation behaviour (C7) -/

/-- C7 (amended): activation fails with `InvalidInput` (400) exactly
when `customer_id` or `order_id` is missing or empty; `ttl_seconds` is
never validated (it defaults to 300 when absent, and any value —
including values ≤ 0 or arbitrarily large — is accepted, cf.
`C7_nonpositive_ttl_accepted`); every created session satisfies
`expires_at = created_at + ttl_seconds * 1000` with `created_at = now`
and state `active`. -/
theorem C7_activation_spec (req : SessionRequest) (db : DB) (now : Int) (sid tok : String) :
    ((jsFalsy req.customer_id || jsFalsy req.order_id) = true →
      createSessionHandler req db now sid tok = (.invalidInput, db))
    ∧ (∀ cust ord, req.customer_id = some cust → req.order_id = some ord →
        cust ≠ "" → ord ≠ "" →
        createSessionHandler req db now sid tok
          = (.created (Session.mk sid cust ord tok "BLE" now
                (now + (req.ttl_seconds.getD 300) * 1000) "active"),
             db.createSession (Session.mk sid cust ord tok "BLE" now
                (now + (req.ttl_seconds.getD 300) * 1000) "active"))) := by
  obtain ⟨cid, oid, ttl⟩ := req
  constructor
  · intro hf
    cases cid with
    | none => rfl
    | some c =>
      cases oid with
      | none => rfl
      | some o =>
        simp only [jsFalsy, Bool.or_eq_true, beq_iff_eq] at hf
        unfold createSessionHandler
        dsimp only
        rw [if_pos (by simpa using hf)]
  · intro cust ord hc ho hcne hone
    cases hc
    cases ho
    unfold createSessionHandler
    dsimp only
    rw [if_neg (by simp [hcne, hone])]

/-- Witness for `C7_activation_spec`: an empty `customer_id` is
rejected, and a valid activation with `ttl_seconds = 120` produces a
session expiring 120000 ms after creation. -/
theorem C7_activation_spec_witness :
    createSessionHandler ⟨some "", some "o", none⟩ emptyDB 5 "s" "t" = (.invalidInput, emptyDB)
    ∧ createSessionHandler ⟨some "cus", some "ord", some 120⟩ emptyDB 5 "s" "t"
      = (.created (Session.mk "s" "cus" "ord" "t" "BLE" 5 (5 + 120 * 1000) "active"),
         emptyDB.createSession (Session.mk "s" "cus" "ord" "t" "BLE" 5 (5 + 120 * 1000) "active")) :=
  ⟨(C7_activation_spec ⟨some "", some "o", none⟩ emptyDB 5 "s" "t").1 (by decide),
   (C7_activation_spec ⟨some "cus", some "ord", some 120⟩ emptyDB 5 "s" "t").2 "cus" "ord"
     rfl rfl (by decide) (by decide)⟩

/-! ### Challenge issuance behaviour (C9) -/

theorem hexOfBytes_length (bs : List (Fin 256)) : (hexOfBytes bs).length = 2 * bs.length := by
  show (bs.flatMap hexByte).length = 2 * bs.length
  induction bs with
  | nil => rfl
  | cons b t ih =>
    simp only [List.flatMap_cons, List.length_append, ih, hexByte, List.length_cons,
      List.length_nil, List.length_cons]
    omega

/-- C9 (amended): every issued challenge carries a nonce that is the
hex encoding of the 16 fresh random bytes — exactly 128 bits, faithfully
recoverable from the 32-character nonce since the encoding is injective
— and a fixed validity window of 60000 ms, independent of the issuing
session (the handler adds the constant `60 * 1000` to `now` regardless
of the session's TTL).  The window is NOT guaranteed shorter than every
session TTL permitted at activation, because activation does not
validate `ttl_seconds` (`C9_window_longer_than_ttl`); it is shorter than
the default TTL of 300 s. -/
theorem C9_challenge_spec (sid : String) (dp : Option String) (db : DB) (now : Int)
    (cid : String) (nonceBytes : List (Fin 256)) (ch : Challenge) (db2 : DB)
    (hlen : nonceBytes.length = 16)
    (hiss : createChallengeHandler sid dp db now cid nonceBytes = (.issued ch, db2)) :
    ch.challenge_nonce = hexOfBytes nonceBytes
    ∧ ch.challenge_nonce.length = 32
    ∧ ch.created_at = now ∧ ch.expires_at = now + 60 * 1000
    ∧ (∀ bs2 : List (Fin 256), hexOfBytes bs2 = ch.challenge_nonce → bs2 = nonceBytes) := by
  unfold createChallengeHandler at hiss
  split at hiss
  · simp at hiss
  · split at hiss
    · simp at hiss
    · split at hiss
      · simp at hiss
      · split at hiss
        · simp at hiss
        · split at hiss
          · simp at hiss
          · split at hiss
            · simp at hiss
            · simp only [Prod.mk.injEq, ChallengeResult.issued.injEq] at hiss
              obtain ⟨hch, -⟩ := hiss
              subst hch
              refine ⟨rfl, ?_, rfl, rfl, ?_⟩
              · rw [hexOfBytes_length, hlen]
              · intro bs2 hb
                exact hexOfBytes_inj hb

def ch9 : Challenge :=
  { challenge_id := "ch_9", session_id := "s_9", dp_id := "dp_1",
    challenge_nonce := hexOfBytes (List.replicate 16 (0 : Fin 256)),
    created_at := 0, expires_at := 60000, used := false }

/-- Witness for `C9_challenge_spec` on the concrete issuance of
`challengeStepC9`. -/
theorem C9_challenge_spec_witness :
    ch9.challenge_nonce = hexOfBytes (List.replicate 16 (0 : Fin 256))
    ∧ ch9.challenge_nonce.length = 32
    ∧ ch9.created_at = 0 ∧ ch9.expires_at = 0 + 60 * 1000 :=
  ⟨(C9_challenge_spec "s_9" (some "dp_1") sessionStepC9.2 0 "ch_9"
      (List.replicate 16 (0 : Fin 256)) ch9 (sessionStepC9.2.createChallenge ch9)
      (by decide) (by decide)).1,
   (C9_challenge_spec "s_9" (some "dp_1") sessionStepC9.2 0 "ch_9"
      (List.replicate 16 (0 : Fin 256)) ch9 (sessionStepC9.2.createChallenge ch9)
      (by decide) (by decide)).2.1,
   (C9_challenge_spec "s_9" (some "dp_1") sessionStepC9.2 0 "ch_9"
      (List.replicate 16 (0 : Fin 256)) ch9 (sessionStepC9.2.createChallenge ch9)
      (by decide) (by decide)).2.2.1,
   (C9_challenge_spec "s_9" (some "dp_1") sessionStepC9.2 0 "ch_9"
      (List.replicate 16 (0 : Fin 256)) ch9 (sessionStepC9.2.createChallenge ch9)
      (by decide) (by decide)).2.2.2.1⟩


/-! ### Signature verification totality (C10)

`verifySignature` is a total Lean function by construction — the
JavaScript `try`/`catch` and the dynamic-type guards are reflected by
the oracle's `Option` result and the `JsValue`/`JsMessage` sum types —
so it returns a boolean on every input.  The theorem below settles the
rejection cases the claim enumerates, and that the handler maps a
`false` verdict to the typed 401 `Invalid signature`, not to the
internal-error path. -/

/-- C10: `verifySignature` returns `false` whenever the public key is a
non-string or empty or fails to parse, the signature is a non-string or
empty or not all-hex or not exactly 128 hex characters, or the message
is a non-string (hashing throws); and a `false` verdict surfaces as the
typed `invalidSignature` failure of the deliveries handler with the
store left unchanged. -/
theorem C10_verifySignature_spec (C : CryptoOracle) (pk : JsValue) (msg : JsMessage)
    (sig : JsValue) :
    ((pk = .nonstr ∨ pk = .jstr "") → verifySignature C pk msg sig = false)
    ∧ ((sig = .nonstr ∨ sig = .jstr "") → verifySignature C pk msg sig = false)
    ∧ (∀ s, sig = .jstr s → s.data.all jsIsHex = false → verifySignature C pk msg sig = false)
    ∧ (∀ s, sig = .jstr s → s.length ≠ 128 → verifySignature C pk msg sig = false)
    ∧ (∀ p, pk = .jstr p → C.keyFromPublic p = none → verifySignature C pk msg sig = false)
    ∧ (msg = .nonstr → verifySignature C pk msg sig = false)
    ∧ (∀ (req : SubmitRequest) (db : DB) (ledger : Option Ledger) (now : Int)
        (sid dpid : String) (session : Session) (challenge : Challenge) (dpKey : DPKeyRow)
        (eid ts rc an tx sd : String) (bt : Int),
        req.session_id = some sid → req.dp_id = some dpid →
        req.signed_blob = some (SignedBlob.decodes msg sig) →
        (sid == "" || dpid == "") = false →
        db.getSession sid = some session →
        db.getChallenge sid dpid = some challenge →
        ¬ now > challenge.expires_at →
        db.getDPKey dpid = some dpKey →
        verifySignature C (.jstr dpKey.public_key) msg sig = false →
        submitDeliveries C req db ledger now eid ts rc an tx sd bt
          = (.failed .invalidSignature, db, ledger)) := by
  refine ⟨?_, ?_, ?_, ?_, ?_, ?_, ?_⟩
  · rintro (hp | hp) <;> subst hp <;> cases sig <;> simp [verifySignature]
  · rintro (hs | hs) <;> subst hs <;> cases pk <;> simp [verifySignature]
  · intro s hs hhex
    subst hs
    cases pk with
    | nonstr => rfl
    | jstr p =>
      unfold verifySignature
      dsimp only
      by_cases hp : p = ""
      · rw [if_pos hp]
      · rw [if_neg hp]
        by_cases hse : s = ""
        · rw [if_pos hse]
        · rw [if_neg hse]
          rw [if_pos (by simp [hhex])]
  · intro s hs hlen
    subst hs
    cases pk with
    | nonstr => rfl
    | jstr p =>
      unfold verifySignature
      dsimp only
      by_cases hp : p = ""
      · rw [if_pos hp]
      · rw [if_neg hp]
        by_cases hse : s = ""
        · rw [if_pos hse]
        · rw [if_neg hse]
          by_cases hhex : ¬(s.data.all jsIsHex = true)
          · rw [if_pos hhex]
          · rw [if_neg hhex]
            rw [if_pos hlen]
  · intro p hp hkey
    subst hp
    cases sig with
    | nonstr => simp [verifySignature]
    | jstr s =>
      unfold verifySignature
      dsimp only
      by_cases hpe : p = ""
      · rw [if_pos hpe]
      · rw [if_neg hpe]
        by_cases hse : s = ""
        · rw [if_pos hse]
        · rw [if_neg hse]
          by_cases hhex : ¬(s.data.all jsIsHex = true)
          · rw [if_pos hhex]
          · rw [if_neg hhex]
            by_cases hlen : s.length ≠ 128
            · rw [if_pos hlen]
            · rw [if_neg hlen, hkey]
  · intro hm
    subst hm
    cases pk with
    | nonstr => rfl
    | jstr p =>
      cases sig with
      | nonstr => simp [verifySignature]
      | jstr s =>
        unfold verifySignature
        dsimp only
        by_cases hpe : p = ""
        · rw [if_pos hpe]
        · rw [if_neg hpe]
          by_cases hse : s = ""
          · rw [if_pos hse]
          · rw [if_neg hse]
            by_cases hhex : ¬(s.data.all jsIsHex = true)
            · rw [if_pos hhex]
            · rw [if_neg hhex]
              by_cases hlen : s.length ≠ 128
              · rw [if_pos hlen]
              · rw [if_neg hlen]
                cases hk : C.keyFromPublic p with
                | none => rfl
                | some k => rfl
  · intro req db ledger now sid dpid session challenge dpKey eid ts rc an tx sd bt
      hsid hdpid hblob hne hgs hgc hexp hgk hvs
    unfold submitDeliveries submitPhase1
    rw [hsid, hdpid, hblob]
    dsimp only
    rw [if_neg (by simp [hne]), hgs]
    dsimp only
    rw [hgc]
    dsimp only
    rw [if_neg hexp, hgk]
    dsimp only
    rw [if_neg (by simp [hvs])]

/-- Witness for `C10_verifySignature_spec`: a non-hex signature and an
unparsable public key are both rejected with a `false` verdict. -/
theorem C10_verifySignature_spec_witness :
    verifySignature demoCrypto (.jstr "pk_1") (.str msgC1) (.jstr "zz") = false
    ∧ verifySignature demoCrypto (.jstr "badkey") (.str msgC1) (.jstr sig128) = false :=
  ⟨(C10_verifySignature_spec demoCrypto (.jstr "pk_1") (.str msgC1) (.jstr "zz")).2.2.1
      "zz" rfl (by decide),
   (C10_verifySignature_spec demoCrypto (.jstr "badkey") (.str msgC1) (.jstr sig128)).2.2.2.2.1
      "badkey" rfl (by decide)⟩


/-! ### Failure reporting for malformed proofs (C8) -/

/-- C8 (amended): the only structural check performed first is the
missing-top-level-fields test, which yields the typed 400
`missingFields` before any lookup; the proof-bundle decode happens only
after the session, challenge, and key reads succeed (with a nonexistent
session the handler reports `sessionNotFound` no matter how malformed
the bundle is); and a bundle that fails to decode — as well as a message
string that fails to parse after signature verification — is reported as
the generic 500 `internalError` by the handler's catch-all, not as a
typed `MalformedProof`.  In all these failure cases the store and ledger
are unchanged. -/
theorem C8_decode_spec (C : CryptoOracle) (req : SubmitRequest) (db : DB)
    (ledger : Option Ledger) (now : Int) (eid ts rc an tx sd : String) (bt : Int) :
    ((req.session_id = none ∨ req.dp_id = none ∨ req.signed_blob = none) →
      submitDeliveries C req db ledger now eid ts rc an tx sd bt
        = (.failed .missingFields, db, ledger))
    ∧ (∀ sid dpid blob, req.session_id = some sid → req.dp_id = some dpid →
        req.signed_blob = some blob → (sid == "" || dpid == "") = false →
        db.getSession sid = none →
        submitDeliveries C req db ledger now eid ts rc an tx sd bt
          = (.failed .sessionNotFound, db, ledger))
    ∧ (∀ sid dpid session challenge dpKey, req.session_id = some sid →
        req.dp_id = some dpid → req.signed_blob = some SignedBlob.undecodable →
        (sid == "" || dpid == "") = false →
        db.getSession sid = some session → db.getChallenge sid dpid = some challenge →
        ¬ now > challenge.expires_at → db.getDPKey dpid = some dpKey →
        submitDeliveries C req db ledger now eid ts rc an tx sd bt
          = (.failed .internalError, db, ledger))
    ∧ (∀ sid dpid m sig session challenge dpKey, req.session_id = some sid →
        req.dp_id = some dpid →
        req.signed_blob = some (SignedBlob.decodes (.str m) (.jstr sig)) →
        (sid == "" || dpid == "") = false →
        db.getSession sid = some session → db.getChallenge sid dpid = some challenge →
        ¬ now > challenge.expires_at → db.getDPKey dpid = some dpKey →
        verifySignature C (.jstr dpKey.public_key) (.str m) (.jstr sig) = true →
        m.parsed = none →
        submitDeliveries C req db ledger now eid ts rc an tx sd bt
          = (.failed .internalError, db, ledger)) := by
  refine ⟨?_, ?_, ?_, ?_⟩
  · intro hmiss
    obtain ⟨qs, qd, qb, qe⟩ := req
    unfold submitDeliveries submitPhase1
    dsimp only at hmiss ⊢
    rcases hmiss with hm | hm | hm <;> subst hm
    · rfl
    · cases qs <;> rfl
    · cases qs <;> cases qd <;> rfl
  · intro sid dpid blob hsid hdpid hblob hne hgs
    unfold submitDeliveries submitPhase1
    rw [hsid, hdpid, hblob]
    dsimp only
    rw [if_neg (by simp [hne]), hgs]
  · intro sid dpid session challenge dpKey hsid hdpid hblob hne hgs hgc hexp hgk
    unfold submitDeliveries submitPhase1
    rw [hsid, hdpid, hblob]
    dsimp only
    rw [if_neg (by simp [hne]), hgs]
    dsimp only
    rw [hgc]
    dsimp only
    rw [if_neg hexp, hgk]
  · intro sid dpid m sig session challenge dpKey hsid hdpid hblob hne hgs hgc hexp hgk
      hvs hparse
    unfold submitDeliveries submitPhase1
    rw [hsid, hdpid, hblob]
    dsimp only
    rw [if_neg (by simp [hne]), hgs]
    dsimp only
    rw [hgc]
    dsimp only
    rw [if_neg hexp, hgk]
    dsimp only
    rw [if_pos hvs]
    rw [hparse]

def msgC8 : StrMessage := { raw := "rawC8", parsed := none }

def reqC8c : SubmitRequest :=
  { session_id := some "s_1", dp_id := some "dp_1",
    signed_blob := some (.decodes (.str msgC8) (.jstr sig128)), evidence_hashes := [] }

/-- Witness for `C8_decode_spec`: missing fields give the typed 400; a
missing session wins over an undecodable bundle; an undecodable bundle
and an unparsable message both end in the generic 500. -/
theorem C8_decode_spec_witness :
    submitDeliveries demoCrypto ⟨none, some "dp_1", some SignedBlob.undecodable, []⟩ dbA
      (some ledger0) 2000 "e" "t" "r" "a" "x" "s" 5
      = (.failed .missingFields, dbA, some ledger0)
    ∧ submitDeliveries demoCrypto reqC8b dbA (some ledger0) 2000 "e" "t" "r" "a" "x" "s" 5
      = (.failed .sessionNotFound, dbA, some ledger0)
    ∧ submitDeliveries demoCrypto reqC8a dbA (some ledger0) 2000 "e" "t" "r" "a" "x" "s" 5
      = (.failed .internalError, dbA, some ledger0)
    ∧ submitDeliveries demoCrypto reqC8c dbA (some ledger0) 2000 "e" "t" "r" "a" "x" "s" 5
      = (.failed .internalError, dbA, some ledger0) :=
  ⟨(C8_decode_spec demoCrypto ⟨none, some "dp_1", some SignedBlob.undecodable, []⟩ dbA
      (some ledger0) 2000 "e" "t" "r" "a" "x" "s" 5).1 (Or.inl rfl),
   (C8_decode_spec demoCrypto reqC8b dbA (some ledger0) 2000 "e" "t" "r" "a" "x" "s" 5).2.1
      "nosuch" "dp_1" SignedBlob.undecodable rfl rfl rfl (by decide) (by decide),
   (C8_decode_spec demoCrypto reqC8a dbA (some ledger0) 2000 "e" "t" "r" "a" "x" "s" 5).2.2.1
      "s_1" "dp_1" sessA chalA keyA rfl rfl rfl (by decide) (by decide) (by decide)
      (by decide) (by decide),
   (C8_decode_spec demoCrypto reqC8c dbA (some ledger0) 2000 "e" "t" "r" "a" "x" "s" 5).2.2.2
      "s_1" "dp_1" msgC8 sig128 sessA chalA keyA rfl rfl rfl (by decide) (by decide)
      (by decide) (by decide) (by decide) (by decide) rfl⟩


/-! ### Event verification endpoint (C6) -/

def evV : EventData :=
  { event_id := "e_v", session_id := "s_v", order_id := "o_v", customer_id := "c_v",
    dp_id := "d_v", ephemeral_token_hash := "sha256:h", challenge_nonce := "n_v",
    dp_signature := "sigA", evidence_hashes := "[]", timestamp := "t_v",
    backend_received_at := "b_v" }

/-- A consistently anchored stored event: its stored `anchor_hash` is
the hash of its own canonical serialization. -/
def rowV1 : DeliveryRow :=
  { event_id := "e_v", session_id := "s_v", order_id := "o_v", customer_id := "c_v",
    dp_id := "d_v", ephemeral_token_hash := "sha256:h", challenge_nonce := "n_v",
    dp_signature := "sigA", evidence_hashes := "[]", timestamp := "t_v",
    backend_received_at := "b_v",
    anchor_hash := some ("0x" ++ demoCrypto.hash (canonicalizeEvent evV)),
    tx_hash := some "0xt", anchored_at := some "a_v", status := "anchored" }

/-- The same stored event with its `dp_signature` tampered at rest (a
hashed, non-anchoring field that the report does not echo). -/
def rowV2 : DeliveryRow := { rowV1 with dp_signature := "sigTAMPERED" }

def dbV1 : DB := { sessions := [], challenges := [], events := [rowV1], dpKeys := [] }

def dbV2 : DB := { sessions := [], challenges := [], events := [rowV2], dpKeys := [] }

def ledgerV : Ledger :=
  { anchored := ["0x" ++ demoCrypto.hash (canonicalizeEvent evV)], log := [] }

/-- C6 counterexample: the verify endpoint does not recompute
`anchor_hash` from the stored fields, so at-rest tampering is invisible
to it.  `rowV1` is consistent (stored hash = recomputation) while
`rowV2` differs only in `dp_signature` and therefore fails the
recomputation — yet the endpoint returns byte-identical successful
reports for both, with `blockchain_verified = true` taken from the
ledger lookup of the stored (stale) hash. -/
theorem C6_tamper_not_detected :
    verifyHandler dbV1 (some ledgerV) "e_v" = verifyHandler dbV2 (some ledgerV) "e_v"
    ∧ rowV1.dp_signature ≠ rowV2.dp_signature
    ∧ rowV1.anchor_hash = some ("0x" ++ demoCrypto.hash (canonicalizeEvent (rowFields rowV1)))
    ∧ rowV2.anchor_hash ≠ some ("0x" ++ demoCrypto.hash (canonicalizeEvent (rowFields rowV2)))
    ∧ (verifyHandler dbV2 (some ledgerV) "e_v").isSome = true := by
  decide

theorem getDeliveryEvent_anchor_fresh (events : List DeliveryRow) (eid h tx an : String)
    (row0 : DeliveryRow) (h0 : row0.event_id = eid)
    (hfresh : ∀ e ∈ events, e.event_id ≠ eid) :
    ((events ++ [row0]).map
        (fun e => if e.event_id == eid then
            { e with anchor_hash := some h, tx_hash := some tx, anchored_at := some an,
                     status := "anchored" }
          else e)).find? (fun e => e.event_id == eid)
      = some { row0 with anchor_hash := some h, tx_hash := some tx, anchored_at := some an,
                         status := "anchored" } := by
  induction events with
  | nil =>
    simp only [List.nil_append, List.map_cons, List.map_nil]
    rw [if_pos (by simp [h0])]
    rw [List.find?_cons_of_pos _ (by simp [h0])]
  | cons e es ih =>
    have hne : e.event_id ≠ eid := hfresh e (List.mem_cons_self e es)
    simp only [List.cons_append, List.map_cons]
    rw [if_neg (by simp [hne])]
    rw [List.find?_cons_of_neg _ (by simp [hne])]
    exact ih (fun x hx => hfresh x (List.mem_cons_of_mem _ hx))

/-- C6 (amended): `verify(event_id)` answers the 404 `EventNotFound`
when the event is absent; otherwise it returns the stored fields
verbatim together with `blockchain_verified` obtained by the ledger read
of the STORED `anchor_hash` (when a contract is configured and the
stored hash is set) — it performs no recomputation or comparison of the
hash (`C6_tamper_not_detected`).  The round-trip the claim relies on
does hold for events the pipeline itself anchors: after a successful
anchored submission with a fresh event id, the stored row's
`anchor_hash` equals the hash recomputed from the row's stored
non-anchoring fields. -/
theorem C6_verify_spec :
    (∀ (db : DB) (ledger : Option Ledger) (eid : String),
      db.getDeliveryEvent eid = none → verifyHandler db ledger eid = none)
    ∧ (∀ (db : DB) (ledger : Option Ledger) (eid : String) (ev : DeliveryRow),
        db.getDeliveryEvent eid = some ev →
        verifyHandler db ledger eid
          = some { event_id := ev.event_id, session_id := ev.session_id,
                   order_id := ev.order_id, dp_id := ev.dp_id, timestamp := ev.timestamp,
                   status := ev.status, tx_hash := ev.tx_hash, anchor_hash := ev.anchor_hash,
                   anchored_at := ev.anchored_at,
                   blockchain_verified :=
                     match ledger, ev.anchor_hash with
                     | some L, some h => if h == "" then false else L.isAnchored h
                     | _, _ => false })
    ∧ (∀ (C : CryptoOracle) (req : SubmitRequest) (db : DB) (L : Ledger) (now : Int)
        (eid ts rc an tx sd : String) (bt : Int) (tx2 : String) (db2 : DB)
        (L2 : Option Ledger),
        submitDeliveries C req db (some L) now eid ts rc an tx sd bt
          = (.verified eid (some tx2), db2, L2) →
        (∀ e ∈ db.events, e.event_id ≠ eid) →
        ∃ row, db2.getDeliveryEvent eid = some row
          ∧ row.anchor_hash = some ("0x" ++ C.hash (canonicalizeEvent (rowFields row)))) := by
  refine ⟨?_, ?_, ?_⟩
  · intro db ledger eid hnone
    unfold verifyHandler
    rw [hnone]
  · intro db ledger eid ev hsome
    unfold verifyHandler
    rw [hsome]
  · intro C req db L now eid ts rc an tx sd bt tx2 db2 L2 hrun hfresh
    cases hp : submitPhase1 C req db now with
    | error f =>
      unfold submitDeliveries at hrun
      rw [hp] at hrun
      simp at hrun
    | ok v =>
      unfold submitDeliveries at hrun
      rw [hp] at hrun
      unfold submitPhase2 at hrun
      dsimp only at hrun
      split at hrun
      · next L2' heq =>
        simp only [Prod.mk.injEq, SubmitResult.verified.injEq] at hrun
        obtain ⟨⟨-, -⟩, hdb2, -⟩ := hrun
        subst hdb2
        have hfind := getDeliveryEvent_anchor_fresh db.events eid
            ("0x" ++ C.hash (canonicalizeEvent
              { event_id := eid, session_id := v.req_sid, order_id := v.session.order_id,
                customer_id := v.session.customer_id, dp_id := v.dp_id,
                ephemeral_token_hash := "sha256:" ++ C.hash v.session.ephemeral_token,
                challenge_nonce := v.challenge.challenge_nonce, dp_signature := v.sigStr,
                evidence_hashes := jsonArr v.evidence, timestamp := ts,
                backend_received_at := rc }))
            tx an
            { event_id := eid, session_id := v.req_sid, order_id := v.session.order_id,
              customer_id := v.session.customer_id, dp_id := v.dp_id,
              ephemeral_token_hash := "sha256:" ++ C.hash v.session.ephemeral_token,
              challenge_nonce := v.challenge.challenge_nonce, dp_signature := v.sigStr,
              evidence_hashes := jsonArr v.evidence, timestamp := ts,
              backend_received_at := rc, anchor_hash := none, tx_hash := none,
              anchored_at := none, status := "pending" }
            rfl hfresh
        exact ⟨_, hfind, rfl⟩
      · next heq =>
        simp at hrun

/-- Witness for `C6_verify_spec`: the 404 case on an empty store, the
report for the stored tampered row, and the round-trip for the anchored
event minted by a concrete successful submission. -/
theorem C6_verify_spec_witness :
    verifyHandler emptyDB (some ledgerV) "e_v" = none
    ∧ verifyHandler dbV2 (some ledgerV) "e_v"
      = some { event_id := "e_v", session_id := "s_v", order_id := "o_v", dp_id := "d_v",
               timestamp := "t_v", status := "anchored", tx_hash := some "0xt",
               anchor_hash := some ("0x" ++ demoCrypto.hash (canonicalizeEvent evV)),
               anchored_at := some "a_v", blockchain_verified := true }
    ∧ ∃ row, outC1.2.1.getDeliveryEvent "evt_1" = some row
        ∧ row.anchor_hash
          = some ("0x" ++ demoCrypto.hash (canonicalizeEvent (rowFields row))) := by
  refine ⟨(C6_verify_spec.1 emptyDB (some ledgerV) "e_v" (by decide)), ?_, ?_⟩
  · have hrep := C6_verify_spec.2.1 dbV2 (some ledgerV) "e_v" rowV2 (by decide)
    rw [hrep]
    decide
  · exact C6_verify_spec.2.2 demoCrypto reqC1 dbA ledger0 2000 "evt_1" "ts1" "rc1" "an1"
      "0xtx1" "0xsender" 5 "0xtx1" outC1.2.1 outC1.2.2 (by decide) (by decide)

end PoD
